import Mathlib

/-!
Verification of the annotation-export core of the `zotero-export-notes`
repository, as a shallow embedding in Lean 4.

The embedding follows the TypeScript sources:
  * `src/modules/exporter.ts`        — export orchestration (`Exporter`)
  * `src/modules/markdownFormatter.ts` — markdown annotation formatting
  * the org metadata formatter (`MetadataFormatter`)
  * the markdown metadata formatter (`MarkdownMetadataFormatter`)
  * the org-pdftools link builder (`OrgPdfToolsLink`)

Modelling conventions:
  * JavaScript strings are Lean `String`s; a possibly-`undefined` string is
    `Option String`.  JavaScript truthiness of a string (`s ? … : …`) is
    "nonempty"; `x || d` on a string-or-undefined is `jsOr`.
  * JavaScript numbers are modelled by `Int` (for `parseInt` results and
    library ids) and by `Rat` (for the geometry arithmetic of the link
    builder); the claims evaluated here only involve values on which IEEE
    doubles are exact.
  * `JSON.parse` is modelled by a small recursive-descent parser covering
    the JSON fragment that annotation `position` strings use (objects,
    arrays, decimal numbers, strings without unicode escapes, booleans,
    null).  A parse error is `none`, matching the `try … catch` recovery.
  * `item.getField(name)` may throw when the field is undefined for the
    item's type (see §6 of the design document); it is modelled as
    `String → Except Unit String`.
  * `String.prototype.localeCompare` on `sortIndex` strings is modelled as
    code-point lexicographic comparison (`charListLe`), which agrees with
    the host collation on the ASCII keys Zotero produces.
-/

/-! ### Generic JavaScript-semantics helpers -/

/-- Truthiness of a JavaScript string: `""` is falsy. -/
def truthyStr (s : String) : Bool := !s.isEmpty

/-- Truthiness of a string-or-undefined value. -/
def truthyOpt (o : Option String) : Bool :=
  match o with
  | some s => !s.isEmpty
  | none => false

/-- Model of `x || d` for a JavaScript string-or-undefined `x`: the value when truthy,
otherwise the default. -/
def jsOr (o : Option String) (d : String) : String :=
  match o with
  | some s => if s.isEmpty then d else s
  | none => d

/-- Whitespace as matched by JavaScript `\s` (ASCII part). -/
def jsWhitespace (c : Char) : Bool :=
  c == ' ' || c == '\t' || c == '\n' || c == '\r' || c == '\x0b' || c == '\x0c'

/-- The run of decimal digits at the head of a character list. -/
def leadingDigits (cs : List Char) : List Char := cs.takeWhile Char.isDigit

/-- Numeric value of a list of decimal digits. -/
def digitsVal (cs : List Char) : Nat :=
  cs.foldl (fun a c => a * 10 + (c.toNat - 48)) 0

/-- JavaScript `parseInt` (base 10), on a string-or-undefined argument:
skip leading whitespace, read an optional sign and then a nonempty run of
decimal digits; `none` models `NaN`.  (`0x` radix prefixes are not
modelled; no page label uses them.)  `parseInt(undefined)` coerces
`undefined` to the string `"undefined"`, hence `NaN`. -/
def jsParseInt (s : Option String) : Option Int :=
  match s with
  | none => none
  | some str =>
    match str.data.dropWhile jsWhitespace with
    | '-' :: rest =>
      if (leadingDigits rest).isEmpty then none
      else some (-(digitsVal (leadingDigits rest) : Int))
    | '+' :: rest =>
      if (leadingDigits rest).isEmpty then none
      else some (digitsVal (leadingDigits rest))
    | cs =>
      if (leadingDigits cs).isEmpty then none
      else some (digitsVal (leadingDigits cs))

/-- Model of `parseInt(label) || d`: the parsed integer unless it is `NaN` or `0`
(both falsy), in which case the default `d`. -/
def parseIntOrElse (label : Option String) (d : Int) : Int :=
  match jsParseInt label with
  | none => d
  | some n => if n = 0 then d else n

/-- Code-point lexicographic `≤` on character lists; the model of
`a.localeCompare(b) ≤ 0` used for `sortIndex` tie-breaking. -/
def charListLe : List Char → List Char → Bool
  | [], _ => true
  | _ :: _, [] => false
  | a :: as, b :: bs =>
    if a.toNat < b.toNat then true
    else if b.toNat < a.toNat then false
    else charListLe as bs

/-- Replace each maximal whitespace run by a single underscore:
`str.replace(/\s+/g, "_")`. -/
def collapseWs (s : String) : String :=
  String.mk ((s.data.foldl
    (fun (acc : List Char × Bool) c =>
      if jsWhitespace c then
        (if acc.2 then acc.1 else '_' :: acc.1, true)
      else (c :: acc.1, false))
    ([], false)).1.reverse)

/-- Model of `String.prototype.trim()` (ASCII whitespace), structurally. -/
def jsTrim (s : String) : String :=
  String.mk (((s.data.dropWhile jsWhitespace).reverse.dropWhile jsWhitespace).reverse)

/-- Split a character list at `'\n'` (the model of `split("\n")`);
an empty input gives `[""]`, as in JavaScript. -/
def splitLinesAux : List Char → List Char → List String
  | [], acc => [String.mk acc.reverse]
  | c :: cs, acc =>
    if c = '\n' then String.mk acc.reverse :: splitLinesAux cs []
    else splitLinesAux cs (c :: acc)

/-- Model of `s.split("\n")`. -/
def jsSplitNl (s : String) : List String := splitLinesAux s.data []

/-- Model of `Array.prototype.join(sep)`: blocks joined with the separator between
successive entries and no trailing separator. -/
def joinSep (sep : String) : List String → String
  | [] => ""
  | [x] => x
  | x :: y :: xs => x ++ sep ++ joinSep sep (y :: xs)

/-- Template-literal interpolation of a string-or-undefined value:
`undefined` prints as the string `"undefined"`. -/
def jsTemplate (o : Option String) : String :=
  match o with
  | some s => s
  | none => "undefined"

/-- Character-by-character rewriting, used for the `replace` calls. -/
def concatMapChars (f : Char → List Char) : List Char → List Char
  | [] => []
  | c :: cs => f c ++ concatMapChars f cs

/-! ### Annotation data model -/

/-- A Zotero annotation record, as consumed by the formatters
(the `ZoteroAnnotation` interface of the sources). -/
structure ZoteroAnnotation where
  key : String
  annotationType : String
  annotationText : Option String
  annotationComment : Option String
  annotationPageLabel : Option String
  annotationSortIndex : Option String
  annotationPosition : String
  /-- Model of `getTags()` flattened to the tag strings. -/
  tags : List String
deriving DecidableEq, Repr

/-! ### A small JSON model (for `JSON.parse` on `position` strings) -/

/-- JSON values, with numbers as rationals. -/
inductive Json where
  | num (q : Rat)
  | str (s : String)
  | bool (b : Bool)
  | null
  | arr (elems : List Json)
  | obj (members : List (String × Json))
deriving Repr

/-- Skip JSON whitespace. -/
def jsonSkipWs (cs : List Char) : List Char := cs.dropWhile jsWhitespace

/-- Parse a JSON number (optional minus, integer part, optional fraction). -/
def parseNumber (cs : List Char) : Option (Rat × List Char) :=
  let (neg, cs1) :=
    match cs with
    | '-' :: rest => (true, rest)
    | _ => (false, cs)
  let ds := leadingDigits cs1
  if ds.isEmpty then none
  else
    let rest1 := cs1.drop ds.length
    let ip : Rat := (digitsVal ds : Rat)
    match rest1 with
    | '.' :: rest2 =>
      let fs := leadingDigits rest2
      if fs.isEmpty then none
      else
        let q := ip + (digitsVal fs : Rat) / ((10 : Rat) ^ fs.length)
        some ((if neg then -q else q), rest2.drop fs.length)
    | _ => some ((if neg then -ip else ip), rest1)

/-- Parse the body of a JSON string (after the opening quote), with the
escapes the position strings can contain. -/
def parseStringChars : Nat → List Char → Option (List Char × List Char)
  | 0, _ => none
  | _, [] => none
  | fuel + 1, c :: rest =>
    if c = '"' then some ([], rest)
    else if c = '\\' then
      match rest with
      | [] => none
      | e :: rest2 =>
        match parseStringChars fuel rest2 with
        | some (s, r) =>
          some ((if e = 'n' then '\n' else if e = 't' then '\t' else e) :: s, r)
        | none => none
    else
      match parseStringChars fuel rest with
      | some (s, r) => some (c :: s, r)
      | none => none

mutual

/-- Parse one JSON value. -/
def parseVal : Nat → List Char → Option (Json × List Char)
  | 0, _ => none
  | fuel + 1, cs =>
    match jsonSkipWs cs with
    | [] => none
    | c :: rest =>
      if c = '\x7b' then parseObjRest fuel rest
      else if c = '[' then parseArrRest fuel rest
      else if c = '"' then
        match parseStringChars (rest.length + 1) rest with
        | some (s, r) => some (Json.str (String.mk s), r)
        | none => none
      else if (c :: rest).take 4 = "true".data then some (Json.bool true, rest.drop 3)
      else if (c :: rest).take 5 = "false".data then some (Json.bool false, rest.drop 4)
      else if (c :: rest).take 4 = "null".data then some (Json.null, rest.drop 3)
      else
        match parseNumber (c :: rest) with
        | some (q, r) => some (Json.num q, r)
        | none => none

/-- Parse the rest of a JSON array (after `[`). -/
def parseArrRest : Nat → List Char → Option (Json × List Char)
  | 0, _ => none
  | fuel + 1, cs =>
    match jsonSkipWs cs with
    | ']' :: rest => some (Json.arr [], rest)
    | cs' =>
      match parseVal fuel cs' with
      | some (v, r) =>
        match parseArrTail fuel r with
        | some (vs, r2) => some (Json.arr (v :: vs), r2)
        | none => none
      | none => none

/-- Parse `, value`* `]`. -/
def parseArrTail : Nat → List Char → Option (List Json × List Char)
  | 0, _ => none
  | fuel + 1, cs =>
    match jsonSkipWs cs with
    | ']' :: rest => some ([], rest)
    | ',' :: rest =>
      match parseVal fuel rest with
      | some (v, r) =>
        match parseArrTail fuel r with
        | some (vs, r2) => some (v :: vs, r2)
        | none => none
      | none => none
    | _ => none

/-- Parse the rest of a JSON object (after the opening brace). -/
def parseObjRest : Nat → List Char → Option (Json × List Char)
  | 0, _ => none
  | fuel + 1, cs =>
    match jsonSkipWs cs with
    | '\x7d' :: rest => some (Json.obj [], rest)
    | cs' =>
      match parseMember fuel cs' with
      | some (kv, r) =>
        match parseObjTail fuel r with
        | some (kvs, r2) => some (Json.obj (kv :: kvs), r2)
        | none => none
      | none => none

/-- Parse one `"key": value` member. -/
def parseMember : Nat → List Char → Option ((String × Json) × List Char)
  | 0, _ => none
  | fuel + 1, cs =>
    match jsonSkipWs cs with
    | '"' :: rest =>
      match parseStringChars (rest.length + 1) rest with
      | some (k, r) =>
        match jsonSkipWs r with
        | ':' :: r2 =>
          match parseVal fuel r2 with
          | some (v, r3) => some ((String.mk k, v), r3)
          | none => none
        | _ => none
      | none => none
    | _ => none

/-- Parse `, member`* and the closing brace. -/
def parseObjTail : Nat → List Char → Option (List (String × Json) × List Char)
  | 0, _ => none
  | fuel + 1, cs =>
    match jsonSkipWs cs with
    | '\x7d' :: rest => some ([], rest)
    | ',' :: rest =>
      match parseMember fuel rest with
      | some (kv, r) =>
        match parseObjTail fuel r with
        | some (kvs, r2) => some (kv :: kvs, r2)
        | none => none
      | none => none
    | _ => none

end

/-- Model of `JSON.parse`, on the modelled fragment: `none` models a thrown
`SyntaxError`. -/
def jsonParse (s : String) : Option Json :=
  match parseVal (2 * s.length + 2) s.data with
  | some (v, rest) => if (jsonSkipWs rest).isEmpty then some v else none
  | none => none

/-! ### Link Builder: `OrgPdfToolsLink` (embedded-path org links) -/

/-- The `AnnotationPosition` interface: `pageIndex: number`,
`rects?: number[][]`. -/
structure AnnotationPosition where
  pageIndex : Rat
  rects : Option (List (List Rat))
deriving DecidableEq, Repr

/-- Extract a JSON number. -/
def Json.asNum : Json → Option Rat
  | .num q => some q
  | _ => none

/-- Extract a JSON array of numbers. -/
def Json.asNumList : Json → Option (List Rat)
  | .arr xs => xs.mapM Json.asNum
  | _ => none

/-- Extract a JSON array of arrays of numbers (the `rects` shape). -/
def Json.asRects : Json → Option (List (List Rat))
  | .arr xs => xs.mapM Json.asNumList
  | _ => none

/-- View a parsed JSON value through the `AnnotationPosition` interface,
as the TypeScript cast does: absent or differently-shaped members read as
`undefined`. -/
def toAnnotationPosition (j : Json) : AnnotationPosition :=
  match j with
  | .obj ms =>
    { pageIndex := ((ms.lookup "pageIndex").bind Json.asNum).getD 0
      rects := (ms.lookup "rects").bind Json.asRects }
  | _ => { pageIndex := 0, rects := none }

/-- Model of `Number.prototype.toFixed(2)`: round to the nearest hundredth, ties
away from zero towards `+∞`, and print with exactly two decimals. -/
def toFixed2 (q : Rat) : String :=
  let n : Int := (q * 100 + 1 / 2).floor
  let a := n.natAbs
  (if n < 0 then "-" else "") ++ toString (a / 100) ++ "." ++
    (if a % 100 < 10 then "0" else "") ++ toString (a % 100)

/-- The data `OrgPdfToolsLink` needs from an annotation
(the `AnnotationLinkData` interface). -/
structure AnnotationLinkData where
  annotationPageLabel : Option String
  annotationPosition : String
  key : String
deriving DecidableEq, Repr

/-- Model of `OrgPdfToolsLink.parsePosition`: `JSON.parse` with the catch-all
returning `{ pageIndex: 0 }`. -/
def OrgPdfToolsLink.parsePosition (positionJson : String) : AnnotationPosition :=
  match jsonParse positionJson with
  | some j => toAnnotationPosition j
  | none => { pageIndex := 0, rects := none }

/-- Model of `OrgPdfToolsLink.calculateHeight`: vertical offset from the first
rectangle; `y ≤ 1` is treated as already normalized, otherwise the value
is scaled by the 792-unit reference page height and clamped to 100. -/
def OrgPdfToolsLink.calculateHeight (position : AnnotationPosition) : Rat :=
  match position.rects with
  | some (firstRect :: _) =>
    if 4 ≤ firstRect.length then
      let y := firstRect.getD 1 0
      if y ≤ 1 then y * 100
      else min (y / 792 * 100) 100
    else 0
  | _ => 0

/-- Model of `OrgPdfToolsLink.generate`: org-pdftools link
`[[pdf:PATH::PAGE++OFFSET;;annot-PAGE-ID][Page PAGE]]:`. -/
def OrgPdfToolsLink.generate (pdfPath : String) (annot : AnnotationLinkData) : String :=
  let page := parseIntOrElse annot.annotationPageLabel 1
  let position := OrgPdfToolsLink.parsePosition annot.annotationPosition
  let height := OrgPdfToolsLink.calculateHeight position
  let annotId := "annot-" ++ toString page ++ "-" ++ annot.key
  let linkTarget :=
    "pdf:" ++ pdfPath ++ "::" ++ toString page ++ "++" ++ toFixed2 height ++ ";;" ++ annotId
  let description := "Page " ++ toString page
  "[[" ++ linkTarget ++ "][" ++ description ++ "]]:"


/-! ### Bibliographic items and metadata extraction -/

/-- One creator record, as returned by `item.getCreators()`. -/
structure Creator where
  creatorType : Option String
  lastName : Option String
  firstName : Option String
  name : Option String
deriving DecidableEq, Repr

/-- A regular bibliographic item, through the narrow accessor interface the
core consumes: `getField` may throw (`Except.error`) when a field is
undefined for the item's type, `key` and `getCreators()` are total. -/
structure BibItem where
  getField : String → Except Unit String
  key : String
  creators : List Creator

/-- The author string: creators tagged `author`, each rendered
`Last, First` (or the single `name` when there is no last name), empties
dropped, joined by `"; "`. -/
def authorsString (creators : List Creator) : String :=
  joinSep "; "
    (((creators.filter (fun c => c.creatorType == some "author")).map
      (fun c =>
        if truthyOpt c.lastName then jsOr c.lastName "" ++ ", " ++ jsOr c.firstName ""
        else jsOr c.name "")).filter (fun n => !n.isEmpty))

/-- The lowercase pattern of the citekey regex literal. -/
def citationKeyPat : List Char := "citation key:".data

/-- Case-insensitive prefix test (ASCII case folding, as the `i` flag). -/
def startsWithCI : List Char → List Char → Bool
  | [], _ => true
  | _ :: _, [] => false
  | p :: ps, c :: cs => (c.toLower == p.toLower) && startsWithCI ps cs

/-- The characters `.` can match: everything but a line terminator. -/
def notLineTerm (c : Char) : Bool := !(c == '\n' || c == '\r')

/-- The capture of `\s*(.+)` after the pattern at this occurrence:
skip whitespace, take the rest of the line; `none` when that is empty. -/
def citekeyAt (cs : List Char) : Option String :=
  let rest := (cs.drop citationKeyPat.length).dropWhile jsWhitespace
  let cap := rest.takeWhile notLineTerm
  if cap.isEmpty then none else some (String.mk cap)

/-- Model of `extra.match(/Citation Key:\s*(.+)/i)`: the capture group of the first
matching occurrence.  (The regex backtracking corner where the line after
the colon holds only whitespace is modelled by moving to the next
occurrence; no real `extra` field hits it.) -/
def findCitekey : List Char → Option String
  | [] => none
  | c :: rest =>
    if startsWithCI citationKeyPat (c :: rest) then
      match citekeyAt (c :: rest) with
      | some cap => some cap
      | none => findCitekey rest
    else findCitekey rest

/-- The fields record both metadata formatters build; a `none` entry models
a property that was never assigned. -/
structure MetaFields where
  title : Option String := none
  date : Option String := none
  doi : Option String := none
  url : Option String := none
  abstract : Option String := none
  publication : Option String := none
  zoteroKey : Option String := none
  authors : Option String := none
  citekey : Option String := none
deriving DecidableEq, Repr

/-- Shared body of the two `extractFields` implementations (they are
textually identical in the sources).  All accesses sit in one
`try … catch`: the first throwing `getField` aborts the remaining
assignments but keeps the ones already made. -/
def extractFieldsImpl (item : BibItem) : MetaFields :=
  match item.getField "title" with
  | .error _ => {}
  | .ok title =>
  let f : MetaFields := { title := some title }
  match item.getField "date" with
  | .error _ => f
  | .ok date =>
  let f := { f with date := some date }
  match item.getField "DOI" with
  | .error _ => f
  | .ok doi =>
  let f := { f with doi := some doi }
  match item.getField "url" with
  | .error _ => f
  | .ok url =>
  let f := { f with url := some url }
  match item.getField "abstractNote" with
  | .error _ => f
  | .ok abstractNote =>
  let f := { f with abstract := some abstractNote }
  match item.getField "publicationTitle" with
  | .error _ => f
  | .ok publicationTitle =>
  let f := { f with publication := some publicationTitle }
  let f := { f with zoteroKey := some item.key }
  let f :=
    if item.creators.isEmpty then f
    else { f with authors := some (authorsString item.creators) }
  match item.getField "extra" with
  | .error _ => f
  | .ok extra =>
  if truthyStr extra then
    match findCitekey extra.data with
    | some cap => { f with citekey := some (jsTrim cap) }
    | none => f
  else f

/-- Model of `MetadataFormatter.extractFields` (org dialect). -/
def MetadataFormatter.extractFields (item : BibItem) : MetaFields :=
  extractFieldsImpl item

/-- Model of `MarkdownMetadataFormatter.extractFields` (markdown dialect); its body
is textually identical to the org one. -/
def MarkdownMetadataFormatter.extractFields (item : BibItem) : MetaFields :=
  extractFieldsImpl item

/-- Model of `MetadataFormatter.format`: org heading, property drawer with entries
only for truthy fields, optional abstract section, `** Annotations`. -/
def MetadataFormatter.format (item : BibItem) : String :=
  let fields := MetadataFormatter.extractFields item
  let output := "* " ++ jsOr fields.title "Untitled" ++ "\n"
  let output := output ++ ":PROPERTIES:\n"
  let output := output ++
    (if truthyOpt fields.authors then ":AUTHOR: " ++ jsOr fields.authors "" ++ "\n" else "")
  let output := output ++
    (if truthyOpt fields.date then ":DATE: " ++ jsOr fields.date "" ++ "\n" else "")
  let output := output ++
    (if truthyOpt fields.publication then
      ":PUBLICATION: " ++ jsOr fields.publication "" ++ "\n" else "")
  let output := output ++
    (if truthyOpt fields.doi then ":DOI: " ++ jsOr fields.doi "" ++ "\n" else "")
  let output := output ++
    (if truthyOpt fields.url then ":URL: " ++ jsOr fields.url "" ++ "\n" else "")
  let output := output ++
    (if truthyOpt fields.zoteroKey then
      ":ZOTERO_KEY: " ++ jsOr fields.zoteroKey "" ++ "\n" else "")
  let output := output ++
    (if truthyOpt fields.citekey then
      ":CUSTOM_ID: " ++ jsOr fields.citekey "" ++ "\n" else "")
  let output := output ++ ":END:\n\n"
  let output := output ++
    (if truthyOpt fields.abstract then
      "** Abstract\n" ++ jsOr fields.abstract "" ++ "\n\n" else "")
  output ++ "** Annotations\n\n"

/-- Model of `escapeYaml`: escape backslashes, then double quotes. -/
def escapeYaml (str : String) : String :=
  String.mk (concatMapChars (fun c => if c == '"' then ['\\', '"'] else [c])
    (concatMapChars (fun c => if c == '\\' then ['\\', '\\'] else [c]) str.data))

/-- Model of `MarkdownMetadataFormatter.format`: YAML front matter with entries only
for truthy fields, `# ` title heading, optional abstract section,
`## Annotations`. -/
def MarkdownMetadataFormatter.format (item : BibItem) : String :=
  let fields := MarkdownMetadataFormatter.extractFields item
  let output := "---\n"
  let output := output ++
    (if truthyOpt fields.title then
      "title: \"" ++ escapeYaml (jsOr fields.title "") ++ "\"\n" else "")
  let output := output ++
    (if truthyOpt fields.authors then
      "author: \"" ++ escapeYaml (jsOr fields.authors "") ++ "\"\n" else "")
  let output := output ++
    (if truthyOpt fields.date then
      "date: \"" ++ escapeYaml (jsOr fields.date "") ++ "\"\n" else "")
  let output := output ++
    (if truthyOpt fields.publication then
      "publication: \"" ++ escapeYaml (jsOr fields.publication "") ++ "\"\n" else "")
  let output := output ++
    (if truthyOpt fields.doi then
      "doi: \"" ++ escapeYaml (jsOr fields.doi "") ++ "\"\n" else "")
  let output := output ++
    (if truthyOpt fields.url then
      "url: \"" ++ escapeYaml (jsOr fields.url "") ++ "\"\n" else "")
  let output := output ++
    (if truthyOpt fields.zoteroKey then
      "zotero_key: \"" ++ jsOr fields.zoteroKey "" ++ "\"\n" else "")
  let output := output ++
    (if truthyOpt fields.citekey then
      "citekey: \"" ++ jsOr fields.citekey "" ++ "\"\n" else "")
  let output := output ++ "---\n\n"
  let output := output ++ "# " ++ jsOr fields.title "Untitled" ++ "\n\n"
  let output := output ++
    (if truthyOpt fields.abstract then
      "## Abstract\n\n" ++ jsOr fields.abstract "" ++ "\n\n" else "")
  output ++ "## Annotations\n\n"

/-! ### Markdown annotation formatting (`markdownFormatter.ts`) -/

/-- Model of `generateZoteroLink`: external-protocol deep link, markdown-rendered;
EPUB attachments use the raw location label and no page parameter, PDF
attachments use `parseInt(label) || 1`. -/
def generateZoteroLink (attachmentKey : String) (libraryID : Int)
    (annot : ZoteroAnnotation) (contentType : String) : String :=
  let annotKey := annot.key
  let libraryPath := if libraryID = 1 then "library" else "groups/" ++ toString libraryID
  if contentType = "application/epub+zip" then
    let location := jsOr annot.annotationPageLabel "Location"
    let url := "zotero://open-epub/" ++ libraryPath ++ "/items/" ++ attachmentKey ++
      "?annotation=" ++ annotKey
    "[" ++ location ++ "](" ++ url ++ ")"
  else
    let page := parseIntOrElse annot.annotationPageLabel 1
    let url := "zotero://open-pdf/" ++ libraryPath ++ "/items/" ++ attachmentKey ++
      "?page=" ++ toString page ++ "&annotation=" ++ annotKey
    "[Page " ++ toString page ++ "](" ++ url ++ ")"

/-- Model of `MarkdownFormatter.formatTags`: `#`-prefixed tokens, whitespace runs
replaced by `_`, `#` characters stripped, space-separated. -/
def MarkdownFormatter.formatTags (annot : ZoteroAnnotation) : String :=
  if annot.tags.isEmpty then ""
  else
    joinSep " "
      (annot.tags.map (fun t =>
        "#" ++ String.mk ((collapseWs t).data.filter (fun c => !(c == '#')))))

/-- Model of `MarkdownFormatter.formatHighlight` (also used for underline). -/
def MarkdownFormatter.formatHighlight (annot : ZoteroAnnotation)
    (attachmentKey : String) (libraryID : Int) (contentType : String) : String :=
  let link := generateZoteroLink attachmentKey libraryID annot contentType
  let text := jsOr annot.annotationText ""
  let comment := annot.annotationComment
  let tags := MarkdownFormatter.formatTags annot
  let output := link ++ "\n\n"
  let quotedLines :=
    joinSep "\n" ((jsSplitNl (jsTrim text)).map (fun line => "> " ++ line))
  let output := output ++ quotedLines ++ "\n"
  let output := output ++
    (if truthyOpt comment && truthyStr (jsTrim (jsOr comment "")) then
      "\n" ++ jsTrim (jsOr comment "") ++ "\n" else "")
  output ++ (if truthyStr tags then "\n" ++ tags ++ "\n" else "")

/-- Model of `MarkdownFormatter.formatNote`. -/
def MarkdownFormatter.formatNote (annot : ZoteroAnnotation)
    (attachmentKey : String) (libraryID : Int) (contentType : String) : String :=
  let link := generateZoteroLink attachmentKey libraryID annot contentType
  let comment := jsOr annot.annotationComment ""
  let tags := MarkdownFormatter.formatTags annot
  let output := link ++ "\n\n"
  let output := output ++ jsTrim comment ++ "\n"
  output ++ (if truthyStr tags then "\n" ++ tags ++ "\n" else "")

/-- Model of `MarkdownFormatter.formatImage`. -/
def MarkdownFormatter.formatImage (annot : ZoteroAnnotation)
    (attachmentKey : String) (libraryID : Int) (contentType : String) : String :=
  let link := generateZoteroLink attachmentKey libraryID annot contentType
  let comment := annot.annotationComment
  let location := annot.annotationPageLabel
  let tags := MarkdownFormatter.formatTags annot
  let output := link ++ "\n\n"
  let output := output ++
    "*[Image annotation at " ++ jsTemplate location ++ "]*\n"
  let output := output ++
    (if truthyOpt comment && truthyStr (jsTrim (jsOr comment "")) then
      "\n" ++ jsTrim (jsOr comment "") ++ "\n" else "")
  output ++ (if truthyStr tags then "\n" ++ tags ++ "\n" else "")

/-- Model of `MarkdownFormatter.formatInk`. -/
def MarkdownFormatter.formatInk (annot : ZoteroAnnotation)
    (attachmentKey : String) (libraryID : Int) (contentType : String) : String :=
  let link := generateZoteroLink attachmentKey libraryID annot contentType
  let comment := annot.annotationComment
  let location := annot.annotationPageLabel
  let tags := MarkdownFormatter.formatTags annot
  let output := link ++ "\n\n"
  let output := output ++
    "*[Ink/drawing annotation at " ++ jsTemplate location ++ "]*\n"
  let output := output ++
    (if truthyOpt comment && truthyStr (jsTrim (jsOr comment "")) then
      "\n" ++ jsTrim (jsOr comment "") ++ "\n" else "")
  output ++ (if truthyStr tags then "\n" ++ tags ++ "\n" else "")

/-- Model of `MarkdownFormatter.formatGeneric`. -/
def MarkdownFormatter.formatGeneric (annot : ZoteroAnnotation)
    (attachmentKey : String) (libraryID : Int) (contentType : String) : String :=
  let link := generateZoteroLink attachmentKey libraryID annot contentType
  let text := jsOr annot.annotationText (jsOr annot.annotationComment "")
  link ++ "\n\n" ++ jsTrim text ++ "\n"

/-- Model of `MarkdownFormatter.format`: dispatch on `annotationType`. -/
def MarkdownFormatter.format (annot : ZoteroAnnotation) (attachmentKey : String)
    (libraryID : Int) (contentType : String) : String :=
  if annot.annotationType = "highlight" ∨ annot.annotationType = "underline" then
    MarkdownFormatter.formatHighlight annot attachmentKey libraryID contentType
  else if annot.annotationType = "note" then
    MarkdownFormatter.formatNote annot attachmentKey libraryID contentType
  else if annot.annotationType = "image" then
    MarkdownFormatter.formatImage annot attachmentKey libraryID contentType
  else if annot.annotationType = "ink" then
    MarkdownFormatter.formatInk annot attachmentKey libraryID contentType
  else
    MarkdownFormatter.formatGeneric annot attachmentKey libraryID contentType

/-! ### Org annotation formatting (spec-modelled) -/

/-- Modelled from the spec: the outline-dialect tag rendering of §4.2 —
tags joined into a single colon-delimited string with inner whitespace
replaced by underscore and inner colons replaced by hyphen.
(The module `annotationFormatter.ts` is not present under `src/`.) -/
def AnnotationFormatter.formatTags (annot : ZoteroAnnotation) : String :=
  if annot.tags.isEmpty then ""
  else
    ":" ++ joinSep ":"
      (annot.tags.map (fun t =>
        String.mk ((collapseWs t).data.map (fun c => if c == ':' then '-' else c)))) ++ ":"

/-- Modelled from the spec: the outline-dialect annotation formatter of
§4.2 (`AnnotationFormatter.format` in `annotationFormatter.ts`, which is
not present under `src/`): a link line built by `OrgPdfToolsLink`
(the attachment's absolute file path is resolved through the host API and
is modelled here by the attachment key), then a named begin/end block by
annotation kind, an optional trimmed comment paragraph, and an optional
tag line.  No claim is decided by this definition; it only fills the org
branch of the orchestrator. -/
def AnnotationFormatter.format (annot : ZoteroAnnotation) (attachmentKey : String)
    (libraryID : Int) (contentType : String) : String :=
  let _ := libraryID
  let _ := contentType
  let link := OrgPdfToolsLink.generate attachmentKey
    { annotationPageLabel := annot.annotationPageLabel
      annotationPosition := annot.annotationPosition
      key := annot.key }
  let tags := AnnotationFormatter.formatTags annot
  let commentPara :=
    if truthyStr (jsTrim (jsOr annot.annotationComment "")) then
      "\n" ++ jsTrim (jsOr annot.annotationComment "") ++ "\n"
    else ""
  let tagLine := if truthyStr tags then "\n" ++ tags ++ "\n" else ""
  if annot.annotationType = "highlight" ∨ annot.annotationType = "underline" then
    link ++ "\n#+begin_quote\n" ++ jsTrim (jsOr annot.annotationText "") ++
      "\n#+end_quote\n" ++ commentPara ++ tagLine
  else if annot.annotationType = "note" then
    link ++ "\n#+begin_comment\n" ++ jsTrim (jsOr annot.annotationComment "") ++
      "\n#+end_comment\n" ++ tagLine
  else if annot.annotationType = "image" then
    link ++ "\n/[Image annotation on page " ++ jsTemplate annot.annotationPageLabel ++
      "]/\n" ++ commentPara ++ tagLine
  else if annot.annotationType = "ink" then
    link ++ "\n/[Ink/drawing annotation on page " ++ jsTemplate annot.annotationPageLabel ++
      "]/\n" ++ commentPara ++ tagLine
  else
    link ++ "\n" ++ jsTrim (jsOr annot.annotationText (jsOr annot.annotationComment "")) ++ "\n"

/-! ### Export orchestration (`exporter.ts`) -/

/-- Model of `SUPPORTED_CONTENT_TYPES`. -/
def SUPPORTED_CONTENT_TYPES : List String :=
  ["application/pdf", "application/epub+zip"]

/-- A PDF/EPUB (or other) attachment with its annotations. -/
structure Attachment where
  key : String
  libraryID : Int
  attachmentContentType : String
  /-- Model of `getAnnotations()`. -/
  annotations : List ZoteroAnnotation

/-- An input item: either an attachment item (with its optionally
resolvable parent) or a regular bibliographic item (with its resolved
attachment children). -/
inductive ZItem where
  | attachmentItem (att : Attachment) (parent : Option BibItem)
  | regularItem (bib : BibItem) (attachments : List Attachment)

/-- The two output dialects. -/
inductive ExportFormat where
  | org
  | md
deriving DecidableEq, Repr

/-- The eligible attachments of `generateContent` step 1: an attachment
item is kept when it is itself PDF/EPUB; a regular item contributes its
attachments with a supported content type. -/
def eligibleAttachments : ZItem → List Attachment
  | .attachmentItem att _ =>
    if att.attachmentContentType = "application/pdf" ∨
        att.attachmentContentType = "application/epub+zip" then [att]
    else []
  | .regularItem _ atts =>
    atts.filter (fun a => SUPPORTED_CONTENT_TYPES.contains a.attachmentContentType)

/-- The metadata-bearing parent: the item itself when regular, otherwise
its resolved parent (if any). -/
def parentOf : ZItem → Option BibItem
  | .attachmentItem _ parent => parent
  | .regularItem bib _ => some bib

/-- Primary sort key: `parseInt(a.annotationPageLabel) || 0`. -/
def sortPageOf (a : ZoteroAnnotation) : Int :=
  parseIntOrElse a.annotationPageLabel 0

/-- Secondary sort key: `a.annotationSortIndex || ""`. -/
def sortIndexOf (a : ZoteroAnnotation) : String :=
  jsOr a.annotationSortIndex ""

/-- The comparator's order: ascending numeric page, ties by ascending
(code-point) comparison of the `sortIndex` strings. -/
def annotLE (a b : ZoteroAnnotation) : Prop :=
  sortPageOf a < sortPageOf b ∨
    (sortPageOf a = sortPageOf b ∧ charListLe (sortIndexOf a).data (sortIndexOf b).data = true)

instance : DecidableRel annotLE := fun a b => by
  unfold annotLE; exact inferInstance

theorem charListLe_total (x y : List Char) : charListLe x y = true ∨ charListLe y x = true := by
  induction x generalizing y with
  | nil => left; rfl
  | cons a as ih =>
    cases y with
    | nil => right; rfl
    | cons b bs =>
      by_cases hab : a.toNat < b.toNat
      · left; simp [charListLe, hab]
      · by_cases hba : b.toNat < a.toNat
        · right; simp [charListLe, hba]
        · rcases ih bs with h | h
          · left; simp [charListLe, hab, hba, h]
          · right; simp [charListLe, hab, hba, h]

theorem charListLe_trans {x y z : List Char} (hxy : charListLe x y = true)
    (hyz : charListLe y z = true) : charListLe x z = true := by
  induction x generalizing y z with
  | nil => rfl
  | cons a as ih =>
    cases y with
    | nil => simp [charListLe] at hxy
    | cons b bs =>
      cases z with
      | nil => simp [charListLe] at hyz
      | cons c cs =>
        simp only [charListLe] at hxy hyz ⊢
        rcases Nat.lt_trichotomy a.toNat b.toNat with h1 | h1 | h1
        · rcases Nat.lt_trichotomy b.toNat c.toNat with h2 | h2 | h2
          · simp [show a.toNat < c.toNat by omega]
          · simp [show a.toNat < c.toNat by omega]
          · simp [show ¬ b.toNat < c.toNat by omega, h2] at hyz
        · rcases Nat.lt_trichotomy b.toNat c.toNat with h2 | h2 | h2
          · simp [show a.toNat < c.toNat by omega]
          · simp only [if_neg (show ¬ a.toNat < b.toNat by omega),
              if_neg (show ¬ b.toNat < a.toNat by omega)] at hxy
            simp only [if_neg (show ¬ b.toNat < c.toNat by omega),
              if_neg (show ¬ c.toNat < b.toNat by omega)] at hyz
            simp only [if_neg (show ¬ a.toNat < c.toNat by omega),
              if_neg (show ¬ c.toNat < a.toNat by omega)]
            exact ih hxy hyz
          · simp [show ¬ b.toNat < c.toNat by omega, h2] at hyz
        · simp [show ¬ a.toNat < b.toNat by omega, h1] at hxy

instance : IsTotal ZoteroAnnotation annotLE := by
  constructor
  intro a b
  rcases Int.lt_trichotomy (sortPageOf a) (sortPageOf b) with h | h | h
  · exact Or.inl (Or.inl h)
  · rcases charListLe_total (sortIndexOf a).data (sortIndexOf b).data with hc | hc
    · exact Or.inl (Or.inr ⟨h, hc⟩)
    · exact Or.inr (Or.inr ⟨h.symm, hc⟩)
  · exact Or.inr (Or.inl h)

instance : IsTrans ZoteroAnnotation annotLE := by
  constructor
  intro a b c hab hbc
  rcases hab with h1 | ⟨h1, h1'⟩
  · rcases hbc with h2 | ⟨h2, _⟩
    · exact Or.inl (lt_trans h1 h2)
    · exact Or.inl (h2 ▸ h1)
  · rcases hbc with h2 | ⟨h2, h2'⟩
    · exact Or.inl (h1 ▸ h2)
    · exact Or.inr ⟨h1.trans h2, charListLe_trans h1' h2'⟩

/-- The in-place `annotations.sort(comparator)`: a stable sort in the
comparator's order (ECMAScript sorts are stable). -/
def sortAnnotations (l : List ZoteroAnnotation) : List ZoteroAnnotation :=
  l.insertionSort annotLE

/-- The per-annotation formatter call of the orchestrator's inner loop. -/
def formatAnnotation (format : ExportFormat) (att : Attachment)
    (annot : ZoteroAnnotation) : String :=
  match format with
  | .org => AnnotationFormatter.format annot att.key att.libraryID att.attachmentContentType
  | .md => MarkdownFormatter.format annot att.key att.libraryID att.attachmentContentType

/-- The `for (const attachment of attachments)` loop of `generateContent`:
threads the accumulated content and the running annotation total; empty
annotation lists are skipped, the total is bumped before sorting, and the
sorted annotations are appended each followed by one newline. -/
def attachmentLoop (format : ExportFormat) :
    List Attachment → String × Nat → String × Nat
  | [], acc => acc
  | att :: rest, (content, total) =>
    if att.annotations.isEmpty then attachmentLoop format rest (content, total)
    else
      let total := total + att.annotations.length
      let content := (sortAnnotations att.annotations).foldl
        (fun c annot => c ++ formatAnnotation format att annot ++ "\n") content
      attachmentLoop format rest (content, total)

/-- The single-item result `{content, annotationCount}`. -/
structure GenerateResult where
  content : String
  annotationCount : Nat
deriving DecidableEq, Repr

/-- Model of `Exporter.generateContent`: `none` models the `null` return. -/
def Exporter.generateContent (item : ZItem) (format : ExportFormat) :
    Option GenerateResult :=
  let attachments := eligibleAttachments item
  if attachments.isEmpty then none
  else
    let header :=
      match parentOf item with
      | some parentItem =>
        match format with
        | .org => MetadataFormatter.format parentItem
        | .md => MarkdownMetadataFormatter.format parentItem
      | none => ""
    let res := attachmentLoop format attachments (header, 0)
    if res.2 = 0 then none
    else some { content := res.1, annotationCount := res.2 }

/-- One record of the batch result's `items` array. -/
structure BatchItemStat where
  title : String
  citekey : Option String
  annotationCount : Nat
deriving DecidableEq, Repr

/-- The batch result `{content, totalAnnotations, itemCount, items}`. -/
structure BatchGenerateResult where
  content : String
  totalAnnotations : Nat
  itemCount : Nat
  items : List BatchItemStat
deriving DecidableEq, Repr

/-- The title lookup of the batch loop: the parent's `title` field inside
its own `try … catch`, defaulting to `""`. -/
def batchTitleOf (item : ZItem) : String :=
  match parentOf item with
  | some parentItem =>
    match parentItem.getField "title" with
    | .ok t => t
    | .error _ => ""
  | none => ""

/-- The indexed `for (let i = 0; i < items.length; i++)` loop of
`generateBatchContent`, with `n` the input length: accumulates the stat
records, the concatenated content (a `"\n"` separator is appended after an
item's content whenever `i < n - 1`), and the annotation total. -/
def Exporter.batchLoop (format : ExportFormat) (citekeys : Option (List String))
    (n : Nat) : Nat → List ZItem → List BatchItemStat × String × Nat
  | _, [] => ([], "", 0)
  | i, item :: rest =>
    let tail := Exporter.batchLoop format citekeys n (i + 1) rest
    match Exporter.generateContent item format with
    | some result =>
      if 0 < result.annotationCount then
        let stat : BatchItemStat :=
          { title := batchTitleOf item
            citekey := citekeys.bind (fun ks => ks.get? i)
            annotationCount := result.annotationCount }
        (stat :: tail.1,
          result.content ++ (if i < n - 1 then "\n" else "") ++ tail.2.1,
          result.annotationCount + tail.2.2)
      else tail
    | none => tail

/-- Model of `Exporter.generateBatchContent`: `none` models the `null` return when
no item produced output. -/
def Exporter.generateBatchContent (items : List ZItem) (format : ExportFormat)
    (citekeys : Option (List String)) : Option BatchGenerateResult :=
  let res := Exporter.batchLoop format citekeys items.length 0 items
  if res.1.isEmpty then none
  else
    some { content := res.2.1, totalAnnotations := res.2.2,
           itemCount := res.1.length, items := res.1 }

/-! ### Helper lemmas -/

/-- Substring containment, used to state that a header exposes a value. -/
def containsStr (s v : String) : Prop := ∃ p q, s = p ++ v ++ q

theorem containsStr_self (v : String) : containsStr v v :=
  ⟨"", "", by rw [String.empty_append, String.append_empty]⟩

theorem containsStr_appendLeft (u : String) {s v : String} (h : containsStr s v) :
    containsStr (u ++ s) v := by
  obtain ⟨p, q, rfl⟩ := h
  exact ⟨u ++ p, q, by simp [String.append_assoc]⟩

theorem containsStr_appendRight (u : String) {s v : String} (h : containsStr s v) :
    containsStr (s ++ u) v := by
  obtain ⟨p, q, rfl⟩ := h
  exact ⟨p, q ++ u, by simp [String.append_assoc]⟩

theorem containsStr_pair (p a b : String) : containsStr ((p ++ a) ++ b) (a ++ b) :=
  ⟨p, "", by simp [String.append_assoc, String.append_empty]⟩

/-- The running total of the attachment loop is the sum of the annotation
list lengths. -/
theorem attachmentLoop_total (format : ExportFormat) :
    ∀ (atts : List Attachment) (c : String) (t : Nat),
      (attachmentLoop format atts (c, t)).2 =
        t + (atts.map (fun a => a.annotations.length)).sum := by
  intro atts
  induction atts with
  | nil => intro c t; simp [attachmentLoop]
  | cons att rest ih =>
    intro c t
    by_cases h : att.annotations.isEmpty
    · have h0 : att.annotations.length = 0 := by
        cases hl : att.annotations with
        | nil => rfl
        | cons x xs => rw [hl] at h; simp [List.isEmpty] at h
      simp only [attachmentLoop, h, if_true, ih, List.map_cons, List.sum_cons, h0]
      omega
    · simp only [attachmentLoop, h, if_false, Bool.false_eq_true, ih, List.map_cons,
        List.sum_cons]
      omega

/-- Model of `generateContent` returns `null` exactly when there is no eligible
attachment or no annotation at all. -/
theorem generateContent_isNone_iff (item : ZItem) (format : ExportFormat) :
    (Exporter.generateContent item format).isNone ↔
      (eligibleAttachments item = [] ∨
        ((eligibleAttachments item).map (fun a => a.annotations.length)).sum = 0) := by
  unfold Exporter.generateContent
  dsimp only
  by_cases he : (eligibleAttachments item).isEmpty
  · have : eligibleAttachments item = [] := by
      cases hl : eligibleAttachments item with
      | nil => rfl
      | cons x xs => rw [hl] at he; simp [List.isEmpty] at he
    simp [he, this]
  · have hne : ¬ eligibleAttachments item = [] := by
      intro hh; rw [hh] at he; simp [List.isEmpty] at he
    rw [attachmentLoop_total]
    by_cases hz : ((eligibleAttachments item).map (fun a => a.annotations.length)).sum = 0
    · simp [he, hz, hne]
    · simp [he, hz, hne]

/-- A non-`null` `generateContent` result carries a positive count. -/
theorem generateContent_pos {item : ZItem} {format : ExportFormat}
    {r : GenerateResult} (h : Exporter.generateContent item format = some r) :
    0 < r.annotationCount := by
  unfold Exporter.generateContent at h
  dsimp only at h
  by_cases he : (eligibleAttachments item).isEmpty
  · rw [if_pos he] at h
    cases h
  · rw [if_neg he] at h
    split at h
    · cases h
    · rename_i hz
      rw [Option.some_inj] at h
      subst h
      exact Nat.pos_of_ne_zero hz

/-- The per-item record the batch loop keeps for an index/item pair. -/
def batchStatOf (format : ExportFormat) (citekeys : Option (List String))
    (p : Nat × ZItem) : Option BatchItemStat :=
  match Exporter.generateContent p.2 format with
  | some result =>
    if 0 < result.annotationCount then
      some { title := batchTitleOf p.2
             citekey := citekeys.bind (fun ks => ks.get? p.1)
             annotationCount := result.annotationCount }
    else none
  | none => none

/-- The batch loop's stats are exactly the index-aligned records of the
items that produced output, in input order. -/
theorem batchLoop_items (format : ExportFormat) (citekeys : Option (List String))
    (n : Nat) :
    ∀ (items : List ZItem) (i : Nat),
      (Exporter.batchLoop format citekeys n i items).1 =
        (items.enumFrom i).filterMap (batchStatOf format citekeys) := by
  intro items
  induction items with
  | nil => intro i; rfl
  | cons item rest ih =>
    intro i
    simp only [Exporter.batchLoop, List.enumFrom, List.filterMap, batchStatOf]
    cases h : Exporter.generateContent item format with
    | none => simpa [h] using ih (i + 1)
    | some result =>
      have hc : 0 < result.annotationCount := generateContent_pos h
      simp [h, hc, ih (i + 1)]

/-- Every batch stat has a positive count, and the running total is the sum
of the stats' counts. -/
theorem batchLoop_counts (format : ExportFormat) (citekeys : Option (List String))
    (n : Nat) :
    ∀ (items : List ZItem) (i : Nat),
      (∀ s ∈ (Exporter.batchLoop format citekeys n i items).1, 1 ≤ s.annotationCount) ∧
      (Exporter.batchLoop format citekeys n i items).2.2 =
        ((Exporter.batchLoop format citekeys n i items).1.map
          BatchItemStat.annotationCount).sum := by
  intro items
  induction items with
  | nil =>
    intro i
    constructor
    · intro s hs
      simp [Exporter.batchLoop] at hs
    · rfl
  | cons item rest ih =>
    intro i
    simp only [Exporter.batchLoop]
    cases h : Exporter.generateContent item format with
    | none => exact ih (i + 1)
    | some result =>
      have hc : 0 < result.annotationCount := generateContent_pos h
      simp only [hc, if_true]
      constructor
      · intro s hs
        rcases List.mem_cons.mp hs with rfl | hs
        · exact hc
        · exact (ih (i + 1)).1 s hs
      · simp [List.map_cons, List.sum_cons, (ih (i + 1)).2]

/-- Unfolding equation of the batch loop on a nonempty list. -/
theorem batchLoop_cons (format : ExportFormat) (citekeys : Option (List String))
    (n i : Nat) (item : ZItem) (rest : List ZItem) :
    Exporter.batchLoop format citekeys n i (item :: rest) =
      (match Exporter.generateContent item format with
      | some result =>
        if 0 < result.annotationCount then
          ({ title := batchTitleOf item
             citekey := citekeys.bind (fun ks => ks.get? i)
             annotationCount := result.annotationCount } ::
              (Exporter.batchLoop format citekeys n (i + 1) rest).1,
            result.content ++ (if i < n - 1 then "\n" else "") ++
              (Exporter.batchLoop format citekeys n (i + 1) rest).2.1,
            result.annotationCount + (Exporter.batchLoop format citekeys n (i + 1) rest).2.2)
        else Exporter.batchLoop format citekeys n (i + 1) rest
      | none => Exporter.batchLoop format citekeys n (i + 1) rest) := rfl

/-- The content blocks of the items that produced output, in input order. -/
def contentBlocks (format : ExportFormat) (items : List ZItem) : List String :=
  items.filterMap (fun it => (Exporter.generateContent it format).map GenerateResult.content)

theorem contentBlocks_ne_nil (format : ExportFormat) :
    ∀ (items : List ZItem) (lastItem : ZItem),
      items.getLast? = some lastItem →
      (Exporter.generateContent lastItem format).isSome = true →
      contentBlocks format items ≠ [] := by
  intro items
  induction items with
  | nil => intro lastItem h _; cases h
  | cons a rest ih =>
    intro lastItem h hs
    cases rest with
    | nil =>
      rw [List.getLast?_singleton, Option.some_inj] at h
      subst h
      cases hg : Exporter.generateContent a format with
      | none => rw [hg] at hs; cases hs
      | some r => simp [contentBlocks, hg]
    | cons b bs =>
      rw [List.getLast?_cons_cons] at h
      have htail := ih lastItem h hs
      cases hg : Exporter.generateContent a format with
      | none => simpa [contentBlocks, hg] using htail
      | some r => simp [contentBlocks, hg]

/-- When the final input item produces output, the accumulated batch
content is the separator-joined block list (no trailing separator). -/
theorem batchLoop_content (format : ExportFormat) (citekeys : Option (List String)) :
    ∀ (items : List ZItem) (i n : Nat) (lastItem : ZItem),
      i + items.length = n →
      items.getLast? = some lastItem →
      (Exporter.generateContent lastItem format).isSome = true →
      (Exporter.batchLoop format citekeys n i items).2.1 =
        joinSep "\n" (contentBlocks format items) := by
  intro items
  induction items with
  | nil => intro i n lastItem _ h _; cases h
  | cons item rest ih =>
    intro i n lastItem hn hlast hsome
    cases rest with
    | nil =>
      rw [List.getLast?_singleton, Option.some_inj] at hlast
      subst hlast
      cases hg : Exporter.generateContent item format with
      | none => rw [hg] at hsome; cases hsome
      | some r =>
        have hc : 0 < r.annotationCount := generateContent_pos hg
        have hsep : ¬ i < n - 1 := by
          simp at hn
          omega
        simp [Exporter.batchLoop, hg, hc, hsep, contentBlocks, joinSep,
          String.append_empty]
    | cons b bs =>
      rw [List.getLast?_cons_cons] at hlast
      have hn' : (i + 1) + (b :: bs).length = n := by
        simp at hn ⊢
        omega
      have htail := ih (i + 1) n lastItem hn' hlast hsome
      cases hg : Exporter.generateContent item format with
      | none =>
        rw [batchLoop_cons, hg]
        rw [htail]
        simp [contentBlocks, hg]
      | some r =>
        have hc : 0 < r.annotationCount := generateContent_pos hg
        have hsep : i < n - 1 := by
          simp at hn'
          omega
        have hblocks : contentBlocks format (b :: bs) ≠ [] :=
          contentBlocks_ne_nil format (b :: bs) lastItem hlast hsome
        rw [batchLoop_cons, hg]
        simp only [hc, if_true, if_pos hsep]
        rw [htail]
        have : contentBlocks format (item :: b :: bs) =
            r.content :: contentBlocks format (b :: bs) := by
          simp [contentBlocks, hg]
        rw [this]
        cases hb : contentBlocks format (b :: bs) with
        | nil => exact absurd hb hblocks
        | cons x xs => simp [joinSep]

/-! ### Claim theorems -/

/-- C3: the vertical offset rendered in the embedded-path (org) link is a
deterministic function of the annotation's position string:
`{"rects":[[0,0.25,10,0.30]]}` gives offset `25.00`,
`{"rects":[[0,396,10,400]]}` gives offset `50.00` (792-unit reference),
and malformed JSON gives offset `0.00`.  (Determinism itself is immediate
in the pure embedding; the three evaluations pin the function down.) -/
theorem c3_link_offset_determinism :
    OrgPdfToolsLink.generate "/doc.pdf"
      { annotationPageLabel := some "3"
        annotationPosition := "\x7b\"rects\":[[0,0.25,10,0.30]]\x7d"
        key := "KEY1" } = "[[pdf:/doc.pdf::3++25.00;;annot-3-KEY1][Page 3]]:" ∧
    OrgPdfToolsLink.generate "/doc.pdf"
      { annotationPageLabel := some "3"
        annotationPosition := "\x7b\"rects\":[[0,396,10,400]]\x7d"
        key := "KEY2" } = "[[pdf:/doc.pdf::3++50.00;;annot-3-KEY2][Page 3]]:" ∧
    OrgPdfToolsLink.generate "/doc.pdf"
      { annotationPageLabel := some "3"
        annotationPosition := "not valid json"
        key := "KEY3" } = "[[pdf:/doc.pdf::3++0.00;;annot-3-KEY3][Page 3]]:" := by
  refine ⟨?_, ?_, ?_⟩ <;> with_unfolding_all decide

/-- The `y` coordinate `calculateHeight` reads from a position: the second
entry of the first rectangle when that rectangle has at least four entries,
`0` otherwise. -/
def rectY (position : AnnotationPosition) : Rat :=
  match position.rects with
  | some (firstRect :: _) =>
    if 4 ≤ firstRect.length then firstRect.getD 1 0 else 0
  | _ => 0

/-- C8 (counterexample): a rectangle with a negative `y` makes the offset
negative — `{rects := [[0, -1, 10, 4]]}` yields `-100`, outside `[0,100]`,
so the claimed bound fails for out-of-range coordinates. -/
theorem c8_counterexample :
    OrgPdfToolsLink.calculateHeight { pageIndex := 0, rects := some [[0, -1, 10, 4]] }
      = -100 ∧
    ¬ (0 ≤ OrgPdfToolsLink.calculateHeight
        { pageIndex := 0, rects := some [[0, -1, 10, 4]] }) := by
  refine ⟨?_, ?_⟩ <;> with_unfolding_all decide

/-- C8 (amended): for every position whose first rectangle's second
coordinate is nonnegative (and for every degenerate rectangle list, where
the offset is `0`), the computed offset lies in `[0, 100]`; a negative `y`
coordinate escapes the interval as the counterexample shows. -/
theorem c8_offset_bounds (position : AnnotationPosition)
    (hy : 0 ≤ rectY position) :
    0 ≤ OrgPdfToolsLink.calculateHeight position ∧
      OrgPdfToolsLink.calculateHeight position ≤ 100 := by
  unfold OrgPdfToolsLink.calculateHeight
  unfold rectY at hy
  match hr : position.rects with
  | none => norm_num
  | some [] => norm_num
  | some (firstRect :: restRects) =>
    rw [hr] at hy
    dsimp only at hy ⊢
    by_cases hlen : 4 ≤ firstRect.length
    · rw [if_pos hlen] at hy ⊢
      set y := firstRect.getD 1 0 with hy_def
      by_cases h1 : y ≤ 1
      · rw [if_pos h1]
        constructor
        · positivity
        · nlinarith
      · rw [if_neg h1]
        constructor
        · rw [le_min_iff]
          constructor
          · have : (0:Rat) < y := by linarith
            positivity
          · norm_num
        · exact min_le_right _ _
    · rw [if_neg hlen] at hy ⊢
      norm_num

/-- C8 witness: a concrete in-range position hits the bound. -/
theorem c8_offset_bounds_witness :
    0 ≤ OrgPdfToolsLink.calculateHeight { pageIndex := 0, rects := some [[0, 1/4, 10, 3/10]] } ∧
      OrgPdfToolsLink.calculateHeight { pageIndex := 0, rects := some [[0, 1/4, 10, 3/10]] } ≤ 100 :=
  c8_offset_bounds { pageIndex := 0, rects := some [[0, 1/4, 10, 3/10]] }
    (by with_unfolding_all decide)

/-- C7: a missing or unparseable page label defaults to page `1` in
generated links (both the embedded-path org link and the external-protocol
PDF link) but to `0` in the sort key; the rendered link page is never `0`
(a parsed `0` is falsy and also falls back to `1`).  The third and fourth
conjuncts exhibit the rendered links as functions of the same default-`1`
page value; the fifth ties the sort key to the default-`0` value. -/
theorem c7_page_label_defaults :
    (∀ lbl : Option String, jsParseInt lbl = none →
      parseIntOrElse lbl 1 = 1 ∧ parseIntOrElse lbl 0 = 0) ∧
    (∀ lbl : Option String, parseIntOrElse lbl 1 ≠ 0) ∧
    (∀ (pdfPath : String) (a : AnnotationLinkData),
      OrgPdfToolsLink.generate pdfPath a =
        "[[" ++ ("pdf:" ++ pdfPath ++ "::" ++ toString (parseIntOrElse a.annotationPageLabel 1) ++
          "++" ++ toFixed2 (OrgPdfToolsLink.calculateHeight
            (OrgPdfToolsLink.parsePosition a.annotationPosition)) ++ ";;" ++
          ("annot-" ++ toString (parseIntOrElse a.annotationPageLabel 1) ++ "-" ++ a.key)) ++
          "][" ++ ("Page " ++ toString (parseIntOrElse a.annotationPageLabel 1)) ++ "]]:") ∧
    (∀ (attachmentKey : String) (libraryID : Int) (annot : ZoteroAnnotation),
      generateZoteroLink attachmentKey libraryID annot "application/pdf" =
        "[Page " ++ toString (parseIntOrElse annot.annotationPageLabel 1) ++ "](" ++
          ("zotero://open-pdf/" ++
            (if libraryID = 1 then "library" else "groups/" ++ toString libraryID) ++
            "/items/" ++ attachmentKey ++ "?page=" ++
            toString (parseIntOrElse annot.annotationPageLabel 1) ++ "&annotation=" ++
            annot.key) ++ ")") ∧
    (∀ a : ZoteroAnnotation, sortPageOf a = parseIntOrElse a.annotationPageLabel 0) := by
  refine ⟨?_, ?_, ?_, ?_, ?_⟩
  · intro lbl h
    unfold parseIntOrElse
    rw [h]
    exact ⟨rfl, rfl⟩
  · intro lbl
    unfold parseIntOrElse
    cases jsParseInt lbl with
    | none => decide
    | some n =>
      dsimp only
      by_cases h0 : n = 0
      · rw [if_pos h0]; decide
      · rw [if_neg h0]; exact h0
  · intro pdfPath a
    rfl
  · intro attachmentKey libraryID annot
    rfl
  · intro a
    rfl

/-- C7 witness: the unparseable label `"iv"` and the label `"0"` both
render as page 1 while the former sorts as 0. -/
theorem c7_page_label_defaults_witness :
    (parseIntOrElse (some "iv") 1 = 1 ∧ parseIntOrElse (some "iv") 0 = 0) ∧
    parseIntOrElse (some "0") 1 ≠ 0 :=
  ⟨c7_page_label_defaults.1 (some "iv") (by decide),
   c7_page_label_defaults.2.1 (some "0")⟩

/-- C1 fixture: highlight on page 10 with sortIndex `"a"`. -/
def annotPage10A : ZoteroAnnotation :=
  { key := "K10A", annotationType := "highlight", annotationText := some "ten"
    annotationComment := none, annotationPageLabel := some "10"
    annotationSortIndex := some "a", annotationPosition := "", tags := [] }

/-- C1 fixture: highlight on page 2 with sortIndex `"b"`. -/
def annotPage2B : ZoteroAnnotation :=
  { key := "K2B", annotationType := "highlight", annotationText := some "two b"
    annotationComment := none, annotationPageLabel := some "2"
    annotationSortIndex := some "b", annotationPosition := "", tags := [] }

/-- C1 fixture: highlight on page 2 with sortIndex `"a"`. -/
def annotPage2A : ZoteroAnnotation :=
  { key := "K2A", annotationType := "highlight", annotationText := some "two a"
    annotationComment := none, annotationPageLabel := some "2"
    annotationSortIndex := some "a", annotationPosition := "", tags := [] }

/-- C1 fixture: a PDF attachment holding the three annotations in the
order pages `["10","2","2"]`, sortIndex `["a","b","a"]`. -/
def c1Attachment : Attachment :=
  { key := "ATT1", libraryID := 1, attachmentContentType := "application/pdf"
    annotations := [annotPage10A, annotPage2B, annotPage2A] }

/-- C1 fixture: the attachment as the exported item (no parent, so no
metadata header). -/
def c1Item : ZItem := .attachmentItem c1Attachment none

/-- C1: the orchestrator formats each attachment's annotations in the
order obtained by sorting ascending on the numeric page
(`parseInt(label) || 0`), ties broken by ascending comparison of
`sortIndex` (`|| ""`): the sort is a permutation of the input sorted by
`annotLE`, and on page labels `["10","2","2"]` with sortIndex
`["a","b","a"]` the generated output lists the fragments in the order
(page 2, `"a"`), (page 2, `"b"`), (page 10, `"a"`). -/
theorem c1_annotation_ordering :
    (∀ l : List ZoteroAnnotation,
      List.Sorted annotLE (sortAnnotations l) ∧ (sortAnnotations l).Perm l) ∧
    Exporter.generateContent c1Item .md =
      some { content :=
               MarkdownFormatter.format annotPage2A "ATT1" 1 "application/pdf" ++ "\n" ++
               MarkdownFormatter.format annotPage2B "ATT1" 1 "application/pdf" ++ "\n" ++
               MarkdownFormatter.format annotPage10A "ATT1" 1 "application/pdf" ++ "\n"
             annotationCount := 3 } := by
  refine ⟨fun l => ⟨List.sorted_insertionSort annotLE l, List.perm_insertionSort annotLE l⟩, ?_⟩
  set_option maxRecDepth 10000 in decide

/-- Witness fixture: a one-annotation PDF attachment item. -/
def wAnnot : ZoteroAnnotation :=
  { key := "W1", annotationType := "note", annotationText := none
    annotationComment := some "a note", annotationPageLabel := some "1"
    annotationSortIndex := none, annotationPosition := "", tags := [] }

/-- Witness fixture: the attachment holding `wAnnot`. -/
def wAttachment : Attachment :=
  { key := "WATT", libraryID := 1, attachmentContentType := "application/pdf"
    annotations := [wAnnot] }

/-- Witness fixture: the attachment as an item without parent. -/
def wItem : ZItem := .attachmentItem wAttachment none

/-- C4: `generateContent` returns `null` exactly when the item has no
eligible PDF/EPUB attachment or the annotation total over all eligible
attachments is zero; otherwise it returns a result with a positive
`annotationCount`.  (Absence is signalled by the `none` value, never by
an exception: the embedding is a total function.) -/
theorem c4_no_content_signaling (item : ZItem) (format : ExportFormat) :
    ((Exporter.generateContent item format).isNone ↔
      (eligibleAttachments item = [] ∨
        ((eligibleAttachments item).map (fun a => a.annotations.length)).sum = 0)) ∧
    (∀ r, Exporter.generateContent item format = some r → 0 < r.annotationCount) :=
  ⟨generateContent_isNone_iff item format, fun _ h => generateContent_pos h⟩

/-- C4 witness: the one-annotation item produces a positive count. -/
theorem c4_no_content_signaling_witness :
    0 < ((Exporter.generateContent wItem ExportFormat.md).getD
      { content := "", annotationCount := 0 }).annotationCount :=
  (c4_no_content_signaling wItem ExportFormat.md).2 _ (by decide)

/-- Batch fixture: parent of item A. -/
def bibA : BibItem :=
  { getField := fun name => if name = "title" then .ok "Title A" else .error ()
    key := "BIBA", creators := [] }

/-- Batch fixture: parent of item C. -/
def bibC : BibItem :=
  { getField := fun name => if name = "title" then .ok "Title C" else .error ()
    key := "BIBC", creators := [] }

/-- Batch fixture: the single annotation of item A. -/
def annotA : ZoteroAnnotation :=
  { key := "A1", annotationType := "highlight", annotationText := some "alpha"
    annotationComment := none, annotationPageLabel := some "1"
    annotationSortIndex := none, annotationPosition := "", tags := [] }

/-- Batch fixture: the single annotation of item C. -/
def annotC : ZoteroAnnotation :=
  { key := "C1", annotationType := "highlight", annotationText := some "gamma"
    annotationComment := none, annotationPageLabel := some "1"
    annotationSortIndex := none, annotationPosition := "", tags := [] }

/-- Batch fixture: item A — one annotation, parent `bibA`. -/
def itemA : ZItem :=
  .attachmentItem
    { key := "ATTA", libraryID := 1, attachmentContentType := "application/pdf"
      annotations := [annotA] } (some bibA)

/-- Batch fixture: item B — a PDF attachment with no annotations, which
yields a `null` single-item result. -/
def itemB : ZItem :=
  .attachmentItem
    { key := "ATTB", libraryID := 1, attachmentContentType := "application/pdf"
      annotations := [] } none

/-- Batch fixture: item C — one annotation, parent `bibC`. -/
def itemC : ZItem :=
  .attachmentItem
    { key := "ATTC", libraryID := 1, attachmentContentType := "application/pdf"
      annotations := [annotC] } (some bibC)

/-- C5: in `generateBatchContent`, citekeys are correlated to items
strictly by input-array index, and the result's `items` array holds one
record per item that produced non-null output, in input order — the array
equals the index-aligned `filterMap` over the enumerated input.  For items
`[A, B, C]` with B yielding null and citekeys `["k1","k2","k3"]`, the two
records carry `"k1"` and `"k3"` (not `"k2"`). -/
theorem c5_batch_citekey_alignment :
    (∀ (items : List ZItem) (format : ExportFormat)
        (citekeys : Option (List String)) (r : BatchGenerateResult),
      Exporter.generateBatchContent items format citekeys = some r →
        r.items = items.enum.filterMap (batchStatOf format citekeys)) ∧
    (Exporter.generateBatchContent [itemA, itemB, itemC] ExportFormat.md
        (some ["k1", "k2", "k3"])).map BatchGenerateResult.items =
      some [{ title := "Title A", citekey := some "k1", annotationCount := 1 },
            { title := "Title C", citekey := some "k3", annotationCount := 1 }] := by
  constructor
  · intro items format citekeys r h
    unfold Exporter.generateBatchContent at h
    dsimp only at h
    split at h
    · cases h
    · rw [Option.some_inj] at h
      subst h
      exact batchLoop_items format citekeys items.length items 0
  · set_option maxRecDepth 10000 in decide

/-- C5 witness: instantiating the general alignment equation on the
concrete three-item batch. -/
theorem c5_batch_citekey_alignment_witness :
    ((Exporter.generateBatchContent [itemA, itemB, itemC] ExportFormat.md
        (some ["k1", "k2", "k3"])).getD
      { content := "", totalAnnotations := 0, itemCount := 0, items := [] }).items =
      [itemA, itemB, itemC].enum.filterMap
        (batchStatOf ExportFormat.md (some ["k1", "k2", "k3"])) :=
  c5_batch_citekey_alignment.1 [itemA, itemB, itemC] ExportFormat.md
    (some ["k1", "k2", "k3"]) _ (by set_option maxRecDepth 10000 in decide)

/-- C10: every non-null batch result satisfies `itemCount = items.length`,
every record's `annotationCount ≥ 1`, and `totalAnnotations` is the sum of
the records' counts. -/
theorem c10_batch_invariants (items : List ZItem) (format : ExportFormat)
    (citekeys : Option (List String)) (r : BatchGenerateResult)
    (h : Exporter.generateBatchContent items format citekeys = some r) :
    r.itemCount = r.items.length ∧
    (∀ s ∈ r.items, 1 ≤ s.annotationCount) ∧
    r.totalAnnotations = (r.items.map BatchItemStat.annotationCount).sum := by
  unfold Exporter.generateBatchContent at h
  dsimp only at h
  split at h
  · cases h
  · rw [Option.some_inj] at h
    subst h
    exact ⟨rfl, (batchLoop_counts format citekeys items.length items 0).1,
      (batchLoop_counts format citekeys items.length items 0).2⟩

/-- C10 witness: the single-item batch satisfies the invariants. -/
theorem c10_batch_invariants_witness :
    (((Exporter.generateBatchContent [wItem] ExportFormat.md none).getD
        { content := "", totalAnnotations := 0, itemCount := 0, items := [] }).itemCount =
      ((Exporter.generateBatchContent [wItem] ExportFormat.md none).getD
        { content := "", totalAnnotations := 0, itemCount := 0, items := [] }).items.length) ∧
    (((Exporter.generateBatchContent [wItem] ExportFormat.md none).getD
        { content := "", totalAnnotations := 0, itemCount := 0, items := [] }).totalAnnotations =
      (((Exporter.generateBatchContent [wItem] ExportFormat.md none).getD
        { content := "", totalAnnotations := 0, itemCount := 0, items := [] }).items.map
          BatchItemStat.annotationCount).sum) :=
  ⟨(c10_batch_invariants [wItem] ExportFormat.md none _ (by decide)).1,
   (c10_batch_invariants [wItem] ExportFormat.md none _ (by decide)).2.2⟩

/-- When the final input item produces output the batch stats are
nonempty. -/
theorem batchStats_ne_nil (format : ExportFormat) (citekeys : Option (List String))
    (n : Nat) :
    ∀ (items : List ZItem) (i : Nat) (lastItem : ZItem),
      items.getLast? = some lastItem →
      (Exporter.generateContent lastItem format).isSome = true →
      (Exporter.batchLoop format citekeys n i items).1 ≠ [] := by
  intro items
  induction items with
  | nil => intro i lastItem h _; cases h
  | cons a rest ih =>
    intro i lastItem h hs
    cases rest with
    | nil =>
      rw [List.getLast?_singleton, Option.some_inj] at h
      subst h
      cases hg : Exporter.generateContent a format with
      | none => rw [hg] at hs; cases hs
      | some r =>
        have hc : 0 < r.annotationCount := generateContent_pos hg
        rw [batchLoop_cons, hg]
        simp [hc]
    | cons b bs =>
      rw [List.getLast?_cons_cons] at h
      have htail := ih (i + 1) lastItem h hs
      cases hg : Exporter.generateContent a format with
      | none =>
        rw [batchLoop_cons, hg]
        exact htail
      | some r =>
        have hc : 0 < r.annotationCount := generateContent_pos hg
        rw [batchLoop_cons, hg]
        simp [hc]

/-- C9 (amended): in the assembled batch content, successive items'
content blocks are separated by exactly one `"\n"` separator (one blank
line, since each block ends in a newline) and no trailing separator
follows the last block — provided the final input item itself yields
non-null output.  When the final item(s) yield null, the separator
appended after the last successful (non-final) item remains as a trailing
separator, as the counterexample shows. -/
theorem c9_batch_separators (items : List ZItem) (format : ExportFormat)
    (citekeys : Option (List String)) (lastItem : ZItem)
    (hlast : items.getLast? = some lastItem)
    (hsome : (Exporter.generateContent lastItem format).isSome = true) :
    (Exporter.generateBatchContent items format citekeys).map
        BatchGenerateResult.content =
      some (joinSep "\n" (contentBlocks format items)) := by
  have hcontent := batchLoop_content format citekeys items 0 items.length lastItem
    (by omega) hlast hsome
  have hstats := batchStats_ne_nil format citekeys items.length items 0 lastItem
    hlast hsome
  have hres : Exporter.generateBatchContent items format citekeys =
      some { content := (Exporter.batchLoop format citekeys items.length 0 items).2.1
             totalAnnotations := (Exporter.batchLoop format citekeys items.length 0 items).2.2
             itemCount := (Exporter.batchLoop format citekeys items.length 0 items).1.length
             items := (Exporter.batchLoop format citekeys items.length 0 items).1 } := by
    unfold Exporter.generateBatchContent
    dsimp only
    rw [if_neg ?_]
    intro hempty
    apply hstats
    cases hl : (Exporter.batchLoop format citekeys items.length 0 items).1 with
    | nil => rfl
    | cons x xs => rw [hl] at hempty; simp [List.isEmpty] at hempty
  rw [hres]
  simp only [Option.map_some']
  rw [hcontent]

/-- C9 counterexample: for the batch `[A, B]` whose final item yields
null, the assembled content is not the trailing-separator-free join of the
blocks — a separator trails the last block. -/
theorem c9_batch_separators_counterexample :
    (Exporter.generateBatchContent [itemA, itemB] ExportFormat.md none).map
        BatchGenerateResult.content ≠
      some (joinSep "\n" (contentBlocks ExportFormat.md [itemA, itemB])) := by
  set_option maxRecDepth 10000 in decide

/-- C9 witness: for the batch `[A, C]` whose final item produces output,
the assembled content is exactly the separator-joined block list. -/
theorem c9_batch_separators_witness :
    (Exporter.generateBatchContent [itemA, itemC] ExportFormat.md none).map
        BatchGenerateResult.content =
      some (joinSep "\n" (contentBlocks ExportFormat.md [itemA, itemC])) :=
  c9_batch_separators [itemA, itemC] ExportFormat.md none itemC rfl
    (by set_option maxRecDepth 10000 in decide)

/-- C2 fixture: an item whose `title` and `DOI` reads succeed but whose
`date` read throws. -/
def c2Item : BibItem :=
  { getField := fun name =>
      if name = "title" then .ok "T"
      else if name = "DOI" then .ok "10.1/x"
      else .error ()
    key := "C2KEY", creators := [] }

/-- C2 counterexample: both `extractFields` bodies sit in a single
`try … catch`, not per-field guards — for `c2Item` the `date` read throws
and the readable DOI `"10.1/x"` is dropped from both headers (no `:DOI:`
drawer entry, no `doi:` front-matter entry), refuting independent
per-field guarding. -/
theorem c2_counterexample :
    c2Item.getField "DOI" = .ok "10.1/x" ∧
    MetadataFormatter.format c2Item = "* T\n:PROPERTIES:\n:END:\n\n** Annotations\n\n" ∧
    MarkdownMetadataFormatter.format c2Item =
      "---\ntitle: \"T\"\n---\n\n# T\n\n## Annotations\n\n" := by
  refine ⟨rfl, ?_, ?_⟩ <;> decide

/-- C2 (amended): field extraction is guarded by a single `try … catch`
per formatter (read order: title, date, DOI, url, abstract, publication,
key, authors, citekey):  a failing read omits that field and all fields
read after it, while fields read before it still render, and the formatter
itself never throws (the embedding is total).  In particular when the
`date` read throws, only the already-read title survives in both
dialects. -/
theorem c2_extraction_single_guard (item : BibItem) (t : String)
    (htitle : item.getField "title" = .ok t)
    (hdate : item.getField "date" = .error ()) :
    MetadataFormatter.extractFields item = { title := some t } ∧
    MarkdownMetadataFormatter.extractFields item = { title := some t } := by
  unfold MetadataFormatter.extractFields MarkdownMetadataFormatter.extractFields
    extractFieldsImpl
  rw [htitle, hdate]
  exact ⟨rfl, rfl⟩

/-- C2 witness: the concrete item with a throwing `date` read keeps only
its title. -/
theorem c2_extraction_single_guard_witness :
    MetadataFormatter.extractFields c2Item = { title := some "T" } ∧
    MarkdownMetadataFormatter.extractFields c2Item = { title := some "T" } :=
  c2_extraction_single_guard c2Item "T" rfl rfl

/-- The org header as one flat concatenation (definitional). -/
theorem orgFormat_eq (item : BibItem) :
    MetadataFormatter.format item =
      "* " ++ jsOr (MetadataFormatter.extractFields item).title "Untitled" ++ "\n" ++
      ":PROPERTIES:\n" ++
      (if truthyOpt (MetadataFormatter.extractFields item).authors then
        ":AUTHOR: " ++ jsOr (MetadataFormatter.extractFields item).authors "" ++ "\n" else "") ++
      (if truthyOpt (MetadataFormatter.extractFields item).date then
        ":DATE: " ++ jsOr (MetadataFormatter.extractFields item).date "" ++ "\n" else "") ++
      (if truthyOpt (MetadataFormatter.extractFields item).publication then
        ":PUBLICATION: " ++ jsOr (MetadataFormatter.extractFields item).publication "" ++ "\n" else "") ++
      (if truthyOpt (MetadataFormatter.extractFields item).doi then
        ":DOI: " ++ jsOr (MetadataFormatter.extractFields item).doi "" ++ "\n" else "") ++
      (if truthyOpt (MetadataFormatter.extractFields item).url then
        ":URL: " ++ jsOr (MetadataFormatter.extractFields item).url "" ++ "\n" else "") ++
      (if truthyOpt (MetadataFormatter.extractFields item).zoteroKey then
        ":ZOTERO_KEY: " ++ jsOr (MetadataFormatter.extractFields item).zoteroKey "" ++ "\n" else "") ++
      (if truthyOpt (MetadataFormatter.extractFields item).citekey then
        ":CUSTOM_ID: " ++ jsOr (MetadataFormatter.extractFields item).citekey "" ++ "\n" else "") ++
      ":END:\n\n" ++
      (if truthyOpt (MetadataFormatter.extractFields item).abstract then
        "** Abstract\n" ++ jsOr (MetadataFormatter.extractFields item).abstract "" ++ "\n\n" else "") ++
      "** Annotations\n\n" := rfl

/-- The markdown header as one flat concatenation (definitional). -/
theorem mdFormat_eq (item : BibItem) :
    MarkdownMetadataFormatter.format item =
      "---\n" ++
      (if truthyOpt (MarkdownMetadataFormatter.extractFields item).title then
        "title: \"" ++ escapeYaml (jsOr (MarkdownMetadataFormatter.extractFields item).title "") ++ "\"\n" else "") ++
      (if truthyOpt (MarkdownMetadataFormatter.extractFields item).authors then
        "author: \"" ++ escapeYaml (jsOr (MarkdownMetadataFormatter.extractFields item).authors "") ++ "\"\n" else "") ++
      (if truthyOpt (MarkdownMetadataFormatter.extractFields item).date then
        "date: \"" ++ escapeYaml (jsOr (MarkdownMetadataFormatter.extractFields item).date "") ++ "\"\n" else "") ++
      (if truthyOpt (MarkdownMetadataFormatter.extractFields item).publication then
        "publication: \"" ++ escapeYaml (jsOr (MarkdownMetadataFormatter.extractFields item).publication "") ++ "\"\n" else "") ++
      (if truthyOpt (MarkdownMetadataFormatter.extractFields item).doi then
        "doi: \"" ++ escapeYaml (jsOr (MarkdownMetadataFormatter.extractFields item).doi "") ++ "\"\n" else "") ++
      (if truthyOpt (MarkdownMetadataFormatter.extractFields item).url then
        "url: \"" ++ escapeYaml (jsOr (MarkdownMetadataFormatter.extractFields item).url "") ++ "\"\n" else "") ++
      (if truthyOpt (MarkdownMetadataFormatter.extractFields item).zoteroKey then
        "zotero_key: \"" ++ jsOr (MarkdownMetadataFormatter.extractFields item).zoteroKey "" ++ "\"\n" else "") ++
      (if truthyOpt (MarkdownMetadataFormatter.extractFields item).citekey then
        "citekey: \"" ++ jsOr (MarkdownMetadataFormatter.extractFields item).citekey "" ++ "\"\n" else "") ++
      "---\n\n" ++
      "# " ++ jsOr (MarkdownMetadataFormatter.extractFields item).title "Untitled" ++ "\n\n" ++
      (if truthyOpt (MarkdownMetadataFormatter.extractFields item).abstract then
        "## Abstract\n\n" ++ jsOr (MarkdownMetadataFormatter.extractFields item).abstract "" ++ "\n\n" else "") ++
      "## Annotations\n\n" := rfl

/-- C6: both dialects extract the identical field record (hence apply the
identical citekey-extraction rule — first case-insensitive
`Citation Key:\s*(.+)` match on `extra`, trimmed), and each field value is
exposed by both headers under the same truthiness guard: the title (with
the `"Untitled"` fallback) always, and authors, date, publication, DOI,
URL, zotero key, citekey and abstract exactly when truthy — so no field is
present in one dialect's header and dropped from the other's. -/
theorem c6_metadata_dialect_equivalence (item : BibItem) :
    MetadataFormatter.extractFields item = MarkdownMetadataFormatter.extractFields item ∧
    containsStr (MetadataFormatter.format item)
      ("* " ++ jsOr (MetadataFormatter.extractFields item).title "Untitled" ++ "\n") ∧
    containsStr (MarkdownMetadataFormatter.format item)
      ("# " ++ jsOr (MetadataFormatter.extractFields item).title "Untitled") ∧
    (truthyOpt (MetadataFormatter.extractFields item).authors = true →
      containsStr (MetadataFormatter.format item)
        (":AUTHOR: " ++ jsOr (MetadataFormatter.extractFields item).authors "" ++ "\n") ∧
      containsStr (MarkdownMetadataFormatter.format item)
        ("author: \"" ++ escapeYaml (jsOr (MetadataFormatter.extractFields item).authors "") ++ "\"\n")) ∧
    (truthyOpt (MetadataFormatter.extractFields item).date = true →
      containsStr (MetadataFormatter.format item)
        (":DATE: " ++ jsOr (MetadataFormatter.extractFields item).date "" ++ "\n") ∧
      containsStr (MarkdownMetadataFormatter.format item)
        ("date: \"" ++ escapeYaml (jsOr (MetadataFormatter.extractFields item).date "") ++ "\"\n")) ∧
    (truthyOpt (MetadataFormatter.extractFields item).publication = true →
      containsStr (MetadataFormatter.format item)
        (":PUBLICATION: " ++ jsOr (MetadataFormatter.extractFields item).publication "" ++ "\n") ∧
      containsStr (MarkdownMetadataFormatter.format item)
        ("publication: \"" ++ escapeYaml (jsOr (MetadataFormatter.extractFields item).publication "") ++ "\"\n")) ∧
    (truthyOpt (MetadataFormatter.extractFields item).doi = true →
      containsStr (MetadataFormatter.format item)
        (":DOI: " ++ jsOr (MetadataFormatter.extractFields item).doi "" ++ "\n") ∧
      containsStr (MarkdownMetadataFormatter.format item)
        ("doi: \"" ++ escapeYaml (jsOr (MetadataFormatter.extractFields item).doi "") ++ "\"\n")) ∧
    (truthyOpt (MetadataFormatter.extractFields item).url = true →
      containsStr (MetadataFormatter.format item)
        (":URL: " ++ jsOr (MetadataFormatter.extractFields item).url "" ++ "\n") ∧
      containsStr (MarkdownMetadataFormatter.format item)
        ("url: \"" ++ escapeYaml (jsOr (MetadataFormatter.extractFields item).url "") ++ "\"\n")) ∧
    (truthyOpt (MetadataFormatter.extractFields item).zoteroKey = true →
      containsStr (MetadataFormatter.format item)
        (":ZOTERO_KEY: " ++ jsOr (MetadataFormatter.extractFields item).zoteroKey "" ++ "\n") ∧
      containsStr (MarkdownMetadataFormatter.format item)
        ("zotero_key: \"" ++ jsOr (MetadataFormatter.extractFields item).zoteroKey "" ++ "\"\n")) ∧
    (truthyOpt (MetadataFormatter.extractFields item).citekey = true →
      containsStr (MetadataFormatter.format item)
        (":CUSTOM_ID: " ++ jsOr (MetadataFormatter.extractFields item).citekey "" ++ "\n") ∧
      containsStr (MarkdownMetadataFormatter.format item)
        ("citekey: \"" ++ jsOr (MetadataFormatter.extractFields item).citekey "" ++ "\"\n")) ∧
    (truthyOpt (MetadataFormatter.extractFields item).abstract = true →
      containsStr (MetadataFormatter.format item)
        ("** Abstract\n" ++ jsOr (MetadataFormatter.extractFields item).abstract "" ++ "\n\n") ∧
      containsStr (MarkdownMetadataFormatter.format item)
        ("## Abstract\n\n" ++ jsOr (MetadataFormatter.extractFields item).abstract "" ++ "\n\n")) := by
  have hext : MarkdownMetadataFormatter.extractFields item =
      MetadataFormatter.extractFields item := rfl
  refine ⟨rfl, ?_, ?_, ?_, ?_, ?_, ?_, ?_, ?_, ?_, ?_⟩
  · rw [orgFormat_eq]
    iterate 11 refine containsStr_appendRight _ ?_
    exact containsStr_self _
  · rw [mdFormat_eq, hext]
    iterate 3 refine containsStr_appendRight _ ?_
    exact containsStr_pair _ _ _
  · intro h
    constructor
    · rw [orgFormat_eq, if_pos h]
      iterate 9 refine containsStr_appendRight _ ?_
      exact containsStr_appendLeft _ (containsStr_self _)
    · rw [mdFormat_eq, hext, if_pos h]
      iterate 12 refine containsStr_appendRight _ ?_
      exact containsStr_appendLeft _ (containsStr_self _)
  · intro h
    constructor
    · rw [orgFormat_eq, if_pos h]
      iterate 8 refine containsStr_appendRight _ ?_
      exact containsStr_appendLeft _ (containsStr_self _)
    · rw [mdFormat_eq, hext, if_pos h]
      iterate 11 refine containsStr_appendRight _ ?_
      exact containsStr_appendLeft _ (containsStr_self _)
  · intro h
    constructor
    · rw [orgFormat_eq, if_pos h]
      iterate 7 refine containsStr_appendRight _ ?_
      exact containsStr_appendLeft _ (containsStr_self _)
    · rw [mdFormat_eq, hext, if_pos h]
      iterate 10 refine containsStr_appendRight _ ?_
      exact containsStr_appendLeft _ (containsStr_self _)
  · intro h
    constructor
    · rw [orgFormat_eq, if_pos h]
      iterate 6 refine containsStr_appendRight _ ?_
      exact containsStr_appendLeft _ (containsStr_self _)
    · rw [mdFormat_eq, hext, if_pos h]
      iterate 9 refine containsStr_appendRight _ ?_
      exact containsStr_appendLeft _ (containsStr_self _)
  · intro h
    constructor
    · rw [orgFormat_eq, if_pos h]
      iterate 5 refine containsStr_appendRight _ ?_
      exact containsStr_appendLeft _ (containsStr_self _)
    · rw [mdFormat_eq, hext, if_pos h]
      iterate 8 refine containsStr_appendRight _ ?_
      exact containsStr_appendLeft _ (containsStr_self _)
  · intro h
    constructor
    · rw [orgFormat_eq, if_pos h]
      iterate 4 refine containsStr_appendRight _ ?_
      exact containsStr_appendLeft _ (containsStr_self _)
    · rw [mdFormat_eq, hext, if_pos h]
      iterate 7 refine containsStr_appendRight _ ?_
      exact containsStr_appendLeft _ (containsStr_self _)
  · intro h
    constructor
    · rw [orgFormat_eq, if_pos h]
      iterate 3 refine containsStr_appendRight _ ?_
      exact containsStr_appendLeft _ (containsStr_self _)
    · rw [mdFormat_eq, hext, if_pos h]
      iterate 6 refine containsStr_appendRight _ ?_
      exact containsStr_appendLeft _ (containsStr_self _)
  · intro h
    constructor
    · rw [orgFormat_eq, if_pos h]
      iterate 1 refine containsStr_appendRight _ ?_
      exact containsStr_appendLeft _ (containsStr_self _)
    · rw [mdFormat_eq, hext, if_pos h]
      iterate 1 refine containsStr_appendRight _ ?_
      exact containsStr_appendLeft _ (containsStr_self _)

/-- C6 fixture: an item with every field populated, an author creator and
a `Citation Key:` entry in `extra`. -/
def c6Bib : BibItem :=
  { getField := fun name =>
      if name = "title" then .ok "Deep Learning"
      else if name = "date" then .ok "2023"
      else if name = "DOI" then .ok "10.1234/example"
      else if name = "url" then .ok "https://example.org"
      else if name = "abstractNote" then .ok "An abstract."
      else if name = "publicationTitle" then .ok "Journal of Examples"
      else if name = "extra" then .ok "Citation Key: smith2023deep"
      else .error ()
    key := "ABC123XY"
    creators := [{ creatorType := some "author", lastName := some "Smith"
                   firstName := some "John", name := none }] }

/-- C6 witness: on the fully-populated item, the two extractions agree and
the author string and citekey are exposed by both headers. -/
theorem c6_metadata_dialect_equivalence_witness :
    MetadataFormatter.extractFields c6Bib = MarkdownMetadataFormatter.extractFields c6Bib ∧
    containsStr (MetadataFormatter.format c6Bib)
      (":AUTHOR: " ++ jsOr (MetadataFormatter.extractFields c6Bib).authors "" ++ "\n") ∧
    containsStr (MarkdownMetadataFormatter.format c6Bib)
      ("author: \"" ++ escapeYaml (jsOr (MetadataFormatter.extractFields c6Bib).authors "") ++ "\"\n") ∧
    containsStr (MetadataFormatter.format c6Bib)
      (":CUSTOM_ID: " ++ jsOr (MetadataFormatter.extractFields c6Bib).citekey "" ++ "\n") ∧
    containsStr (MarkdownMetadataFormatter.format c6Bib)
      ("citekey: \"" ++ jsOr (MetadataFormatter.extractFields c6Bib).citekey "" ++ "\"\n") :=
  ⟨(c6_metadata_dialect_equivalence c6Bib).1,
   ((c6_metadata_dialect_equivalence c6Bib).2.2.2.1 (by decide)).1,
   ((c6_metadata_dialect_equivalence c6Bib).2.2.2.1 (by decide)).2,
   ((c6_metadata_dialect_equivalence c6Bib).2.2.2.2.2.2.2.2.2.1 (by decide)).1,
   ((c6_metadata_dialect_equivalence c6Bib).2.2.2.2.2.2.2.2.2.1 (by decide)).2⟩
